import Mathlib

/-!
Verification of the Safari `Cookies.binarycookies` parser.

This file gives a shallow embedding of the parser module
(`parseBinaryCookies`, `parsePage`, `parseCookieRecord`, `readCString`,
`cocoaToUnix`, `importSafariCookies`) and proves properties of it.

Modelling conventions:
- A Node `Buffer` is a `List ℕ` of bytes.
- JavaScript strings produced by `Buffer.toString` are kept as byte lists
  (`toString("ascii")` additionally masks each byte to 7 bits, which the
  magic check below reproduces).
- `Buffer.readUInt32LE/BE/readDoubleLE` throw a range error when the read
  does not fit in the buffer; this is modelled with `Except` and the
  `ParseError.outOfRange` error.  `Buffer.subarray` clamps, which is
  modelled by `List.drop`/`List.take`.
- A finite IEEE-754 binary64 value is represented exactly as a dyadic
  rational `num * 2 ^ exp` (`Dyadic`); `NaN` and the infinities get their
  own constructors.  The `+` of `cocoaToUnix` is JavaScript double
  addition: the exact dyadic sum is rounded to binary64 precision with
  round-to-nearest, ties-to-even (`roundDyadic`, `jsAdd`), overflowing to
  an infinity.  `Math.floor` (`jsFloor`) on a finite value is the
  mathematical floor of its exact dyadic value, computed with integer
  division and related to `Int.floor` over `ℚ` by `dyadicFloorInt_eq`
  below.
-/

/-- Errors thrown by the byte-level parser: a magic mismatch (the thrown
`Error` carries the ascii-decoded magic that was found) or a Node
out-of-range read from one of the `Buffer.read*` calls. -/
inductive ParseError where
  | badMagic (got : List ℕ)
  | outOfRange
deriving DecidableEq, Repr

/-- Errors surfaced by `importSafariCookies`: the cookies file does not
exist, or the byte-level parser threw. -/
inductive ImportError where
  | fileNotFound
  | parseFailure (e : ParseError)
deriving DecidableEq, Repr

/-- An exact dyadic rational `num * 2 ^ exp`, the value of a finite
IEEE-754 binary64 number. -/
structure Dyadic where
  num : ℤ
  exp : ℤ
deriving DecidableEq, Repr

/-- The exact rational value of a dyadic number. -/
def Dyadic.toRat (d : Dyadic) : ℚ :=
  (d.num : ℚ) * (2 : ℚ) ^ d.exp

/-- A JavaScript `number` as produced by `Buffer.readDoubleLE`. -/
inductive JSNum where
  | finite (d : Dyadic)
  | inf (neg : Bool)
  | nan
deriving DecidableEq, Repr

/-- A JavaScript `number` that is the result of `Math.floor`: an integer,
an infinity, or `NaN`. -/
inductive JSInt where
  | finite (n : ℤ)
  | inf (neg : Bool)
  | nan
deriving DecidableEq, Repr

/-- The `SafariCookie` record returned by the parser.  String fields are
byte lists. -/
structure SafariCookie where
  name : List ℕ
  value : List ℕ
  domain : List ℕ
  path : List ℕ
  expires : JSInt
  secure : Bool
  httpOnly : Bool
deriving DecidableEq, Repr

/-- Byte access `buffer[i]` (in-range accesses only are ever relevant). -/
def readByte (buffer : List ℕ) (i : ℕ) : ℕ := buffer.getD i 0

/-- `Buffer.readUInt32LE`: little-endian 32-bit read, throwing when the
four bytes do not fit in the buffer. -/
def readUInt32LE (buffer : List ℕ) (off : ℕ) : Except ParseError ℕ :=
  if off + 4 ≤ buffer.length then
    .ok (readByte buffer off + 256 * readByte buffer (off + 1) +
      65536 * readByte buffer (off + 2) + 16777216 * readByte buffer (off + 3))
  else .error .outOfRange

/-- `Buffer.readUInt32BE`: big-endian 32-bit read, throwing when the four
bytes do not fit in the buffer. -/
def readUInt32BE (buffer : List ℕ) (off : ℕ) : Except ParseError ℕ :=
  if off + 4 ≤ buffer.length then
    .ok (16777216 * readByte buffer off + 65536 * readByte buffer (off + 1) +
      256 * readByte buffer (off + 2) + readByte buffer (off + 3))
  else .error .outOfRange

/-- Interpret a 64-bit pattern as an IEEE-754 binary64 value. -/
def decodeFloat64 (bits : ℕ) : JSNum :=
  let sign : Bool := bits / 2 ^ 63 % 2 == 1
  let e : ℕ := bits / 2 ^ 52 % 2048
  let m : ℕ := bits % 2 ^ 52
  if e = 2047 then
    if m = 0 then .inf sign else .nan
  else if e = 0 then
    .finite ⟨if sign then -(m : ℤ) else (m : ℤ), -1074⟩
  else
    .finite ⟨if sign then -((2 ^ 52 + m : ℕ) : ℤ) else ((2 ^ 52 + m : ℕ) : ℤ), (e : ℤ) - 1075⟩

/-- `Buffer.readDoubleLE`: read eight bytes little-endian and interpret
them as an IEEE-754 binary64 value, throwing when they do not fit. -/
def readDoubleLE (buffer : List ℕ) (off : ℕ) : Except ParseError JSNum :=
  if off + 8 ≤ buffer.length then
    .ok (decodeFloat64 (readByte buffer off + 256 * readByte buffer (off + 1) +
      256 ^ 2 * readByte buffer (off + 2) + 256 ^ 3 * readByte buffer (off + 3) +
      256 ^ 4 * readByte buffer (off + 4) + 256 ^ 5 * readByte buffer (off + 5) +
      256 ^ 6 * readByte buffer (off + 6) + 256 ^ 7 * readByte buffer (off + 7)))
  else .error .outOfRange

/-- Bit length with explicit fuel (the fuel is always sufficient when it
is at least the argument). -/
def bitLenAux : ℕ → ℕ → ℕ
  | 0, _ => 0
  | Nat.succ fuel, n => if n = 0 then 0 else bitLenAux fuel (n / 2) + 1

/-- The bit length of a natural number: 0 for 0, and otherwise the unique
`b` with `2 ^ (b - 1) ≤ n < 2 ^ b`. -/
def bitLen (n : ℕ) : ℕ := bitLenAux n n

/-- Round the exact dyadic value `num * 2 ^ exp` to IEEE-754 binary64
precision, round-to-nearest with ties-to-even, overflowing to an infinity
when the rounded magnitude reaches `2 ^ 1024` and flushing to zero below
the smallest subnormal.  The significand is cut at the larger of
`2 ^ (E - 52)` and `2 ^ (-1074)`, where `E` is the floor base-2 exponent
of the magnitude. -/
def roundDyadic (num ex : ℤ) : JSNum :=
  if num = 0 then .finite ⟨0, 0⟩
  else
    let sign : Bool := num < 0
    let a : ℕ := num.natAbs
    let E : ℤ := (bitLen a : ℤ) - 1 + ex
    let k : ℤ := max (E - 52) (-1074)
    let M : ℕ :=
      if k ≤ ex then a * 2 ^ (ex - k).toNat
      else
        let s := (k - ex).toNat
        let M0 := a / 2 ^ s
        let r := a % 2 ^ s
        let half := 2 ^ (s - 1)
        if r < half then M0
        else if half < r then M0 + 1
        else if M0 % 2 = 0 then M0 else M0 + 1
    if M = 0 then .finite ⟨0, 0⟩
    else if 1024 ≤ (bitLen M : ℤ) - 1 + k then .inf sign
    else .finite ⟨if sign then -(M : ℤ) else (M : ℤ), k⟩

/-- JavaScript `+` on two numbers: the exact sum of two finite doubles is
rounded back to binary64; infinities and `NaN` follow IEEE-754. -/
def jsAdd (x y : JSNum) : JSNum :=
  match x, y with
  | .nan, _ => .nan
  | _, .nan => .nan
  | .inf s, .inf t => if s = t then .inf s else .nan
  | .inf s, .finite _ => .inf s
  | .finite _, .inf t => .inf t
  | .finite d₁, .finite d₂ =>
    let m := min d₁.exp d₂.exp
    roundDyadic (d₁.num * ((2 ^ (d₁.exp - m).toNat : ℕ) : ℤ) +
      d₂.num * ((2 ^ (d₂.exp - m).toNat : ℕ) : ℤ)) m

/-- The integer floor of the exact value of a dyadic number, computed
with integer (Euclidean) division. -/
def dyadicFloorInt (d : Dyadic) : ℤ :=
  if 0 ≤ d.exp then d.num * ((2 ^ d.exp.toNat : ℕ) : ℤ)
  else d.num / ((2 ^ (-d.exp).toNat : ℕ) : ℤ)

/-- JavaScript `Math.floor`: the floor of a finite value; infinities and
`NaN` map to themselves. -/
def jsFloor (x : JSNum) : JSInt :=
  match x with
  | .finite d => .finite (dyadicFloorInt d)
  | .inf s => .inf s
  | .nan => .nan

/-- Cocoa epoch (Jan 1, 2001) to Unix epoch (Jan 1, 1970) offset in
seconds (`COCOA_EPOCH_OFFSET` in the source), as the double 978307200. -/
def COCOA_EPOCH_OFFSET : JSNum := .finite ⟨978307200, 0⟩

/-- `cocoaToUnix`: `Math.floor(cocoaTime + COCOA_EPOCH_OFFSET)`, where
`+` is JavaScript double addition (with binary64 rounding). -/
def cocoaToUnix (cocoaTime : JSNum) : JSInt :=
  jsFloor (jsAdd cocoaTime COCOA_EPOCH_OFFSET)

/-- `readCString`: scan from `offset` until a zero byte or the end of the
buffer and return the scanned bytes.  Never throws; an out-of-bounds
`offset` yields the empty string. -/
def readCString (buffer : List ℕ) (offset : ℕ) : List ℕ :=
  (buffer.drop offset).takeWhile (fun b => b != 0)

/-- `parseCookieRecord`: decode a single cookie record at `recordOffset`.
The fixed fields are read with throwing `Buffer.read*` calls in source
order; the four string fields are read with the non-throwing
`readCString`. -/
def parseCookieRecord (buffer : List ℕ) (recordOffset : ℕ) :
    Except ParseError SafariCookie :=
  match readUInt32LE buffer (recordOffset + 8) with
  | .error e => .error e
  | .ok flags =>
    match readUInt32LE buffer (recordOffset + 16) with
    | .error e => .error e
    | .ok domainOffset =>
      match readUInt32LE buffer (recordOffset + 20) with
      | .error e => .error e
      | .ok nameOffset =>
        match readUInt32LE buffer (recordOffset + 24) with
        | .error e => .error e
        | .ok pathOffset =>
          match readUInt32LE buffer (recordOffset + 28) with
          | .error e => .error e
          | .ok valueOffset =>
            match readDoubleLE buffer (recordOffset + 40) with
            | .error e => .error e
            | .ok expiration =>
              .ok { name := readCString buffer (recordOffset + nameOffset)
                    value := readCString buffer (recordOffset + valueOffset)
                    domain := readCString buffer (recordOffset + domainOffset)
                    path := readCString buffer (recordOffset + pathOffset)
                    expires := cocoaToUnix expiration
                    secure := flags &&& 1 != 0
                    httpOnly := flags &&& 4 != 0 }

/-- The record loop of `parsePage`: process `n` record-offset entries
starting at entry index `i`.  Reading an offset entry throws out of the
loop; a failing `parseCookieRecord` is caught and the record skipped. -/
def parseRecordsFrom (buffer : List ℕ) (i n : ℕ) :
    Except ParseError (List SafariCookie) :=
  match n with
  | 0 => .ok []
  | Nat.succ n' =>
    match readUInt32LE buffer (8 + i * 4) with
    | .error e => .error e
    | .ok recordOffset =>
      match parseRecordsFrom buffer (i + 1) n' with
      | .error e => .error e
      | .ok rest =>
        match parseCookieRecord buffer recordOffset with
        | .ok c => .ok (c :: rest)
        | .error _ => .ok rest

/-- `parsePage`: check the big-endian page signature (a mismatch yields an
empty page, not an error), read the little-endian cookie count, and run
the record loop. -/
def parsePage (buffer : List ℕ) : Except ParseError (List SafariCookie) :=
  match readUInt32BE buffer 0 with
  | .error e => .error e
  | .ok signature =>
    if signature ≠ 0x00000100 then .ok []
    else
      match readUInt32LE buffer 4 with
      | .error e => .error e
      | .ok cookieCount => parseRecordsFrom buffer 0 cookieCount

/-- The page-size loop of `parseBinaryCookies`: read `n` big-endian page
sizes starting at table index `i`. -/
def readPageSizes (buffer : List ℕ) (i n : ℕ) : Except ParseError (List ℕ) :=
  match n with
  | 0 => .ok []
  | Nat.succ n' =>
    match readUInt32BE buffer (8 + i * 4) with
    | .error e => .error e
    | .ok s =>
      match readPageSizes buffer (i + 1) n' with
      | .error e => .error e
      | .ok rest => .ok (s :: rest)

/-- The page loop of `parseBinaryCookies`: slice each page with
`Buffer.subarray` (which clamps to the bytes that remain) and concatenate
the parsed pages. -/
def parsePages (buffer : List ℕ) (sizes : List ℕ) (pageOffset : ℕ) :
    Except ParseError (List SafariCookie) :=
  match sizes with
  | [] => .ok []
  | size :: rest =>
    match parsePage ((buffer.drop pageOffset).take size) with
    | .error e => .error e
    | .ok pageCookies =>
      match parsePages buffer rest (pageOffset + size) with
      | .error e => .error e
      | .ok more => .ok (pageCookies ++ more)

/-- The bytes of the magic string "cook". -/
def cookMagic : List ℕ := [99, 111, 111, 107]

/-- `parseBinaryCookies` applied to the contents of the file: check the
magic (`toString("ascii")` masks each byte to 7 bits), read the big-endian
page count and page-size table, and parse the pages starting right after
the `8 + 4 * pageCount`-byte header. -/
def parseBinaryCookies (buffer : List ℕ) : Except ParseError (List SafariCookie) :=
  let magic := (buffer.take 4).map (fun b => b % 128)
  if magic = cookMagic then
    match readUInt32BE buffer 4 with
    | .error e => .error e
    | .ok pageCount =>
      match readPageSizes buffer 0 pageCount with
      | .error e => .error e
      | .ok pageSizes => parsePages buffer pageSizes (8 + pageCount * 4)
  else .error (.badMagic magic)

/-- ASCII lower-casing, the effect of JavaScript `toLowerCase` on the
ASCII strings involved here. -/
def toLowerAscii (s : List ℕ) : List ℕ :=
  s.map (fun b => if 65 ≤ b ∧ b ≤ 90 then b + 32 else b)

/-- The domain predicate of `importSafariCookies`: the lower-cased cookie
domain equals the (already lower-cased) filter, equals `"." + filter`, or
ends with `"." + filter`. -/
def domainFilterMatch (domainFilter : List ℕ) (c : SafariCookie) : Bool :=
  let cookieDomain := toLowerAscii c.domain
  cookieDomain == domainFilter || cookieDomain == 46 :: domainFilter ||
    (46 :: domainFilter).isSuffixOf cookieDomain

/-- `importSafariCookies`: fail if the cookies file does not exist, parse
it, and filter by the optional domain (`options?.domain` is truthy exactly
when it is a nonempty string). -/
def importSafariCookies (fileExists : Bool) (buffer : List ℕ)
    (domain : Option (List ℕ)) : Except ImportError (List SafariCookie) :=
  if fileExists then
    match parseBinaryCookies buffer with
    | .error e => .error (.parseFailure e)
    | .ok cookies =>
      match domain with
      | some d =>
        if d ≠ [] then
          .ok (cookies.filter (domainFilterMatch (toLowerAscii d)))
        else .ok cookies
      | none => .ok cookies
  else .error .fileNotFound

/-! ## Concrete fixtures -/

/-- The hand-constructed minimal valid file: magic "cook", one page of
101 bytes, one record with domain ".example.com", name "session_id",
path "/", value "abc123", flags 5 (bits 0 and 2 set), expiration the
Cocoa timestamp 757382400.0 (bytes 0 0 0 128 94 146 198 65 LE). -/
def fixtureFile : List ℕ :=
  [99, 111, 111, 107, 0, 0, 0, 1, 0, 0, 0, 101,
   0, 0, 1, 0, 1, 0, 0, 0, 12, 0, 0, 0, 89, 0, 0, 0, 0, 0,
   0, 0, 5, 0, 0, 0, 0, 0, 0, 0, 56, 0, 0, 0, 69, 0, 0, 0,
   80, 0, 0, 0, 82, 0, 0, 0, 0, 0, 0, 0, 0, 0, 0, 0, 0, 0,
   0, 128, 94, 146, 198, 65, 0, 0, 0, 0, 0, 0, 0, 0, 46, 101, 120, 97,
   109, 112, 108, 101, 46, 99, 111, 109, 0, 115, 101, 115, 115, 105, 111, 110, 95, 105,
   100, 0, 47, 0, 97, 98, 99, 49, 50, 51, 0]

/-- The single page of `fixtureFile` (its bytes from offset 12 on). -/
def fixturePage : List ℕ :=
  [0, 0, 1, 0, 1, 0, 0, 0, 12, 0, 0, 0, 89, 0, 0, 0, 0, 0,
   0, 0, 5, 0, 0, 0, 0, 0, 0, 0, 56, 0, 0, 0, 69, 0, 0, 0,
   80, 0, 0, 0, 82, 0, 0, 0, 0, 0, 0, 0, 0, 0, 0, 0, 0, 0,
   0, 128, 94, 146, 198, 65, 0, 0, 0, 0, 0, 0, 0, 0, 46, 101, 120, 97,
   109, 112, 108, 101, 46, 99, 111, 109, 0, 115, 101, 115, 115, 105, 111, 110, 95, 105,
   100, 0, 47, 0, 97, 98, 99, 49, 50, 51, 0]

/-- The 89-byte cookie record of `fixtureFile` on its own. -/
def fixtureRecord : List ℕ :=
  [89, 0, 0, 0, 0, 0, 0, 0, 5, 0, 0, 0, 0, 0, 0, 0, 56, 0,
   0, 0, 69, 0, 0, 0, 80, 0, 0, 0, 82, 0, 0, 0, 0, 0, 0, 0,
   0, 0, 0, 0, 0, 0, 0, 128, 94, 146, 198, 65, 0, 0, 0, 0, 0, 0,
   0, 0, 46, 101, 120, 97, 109, 112, 108, 101, 46, 99, 111, 109, 0, 115, 101, 115,
   115, 105, 111, 110, 95, 105, 100, 0, 47, 0, 97, 98, 99, 49, 50, 51, 0]

/-- The cookie that `fixtureFile` decodes to: name "session_id", value
"abc123", domain ".example.com", path "/", Unix expiry 1735689600,
secure and httpOnly both set. -/
def fixtureCookie : SafariCookie :=
  { name := [115, 101, 115, 115, 105, 111, 110, 95, 105, 100]
    value := [97, 98, 99, 49, 50, 51]
    domain := [46, 101, 120, 97, 109, 112, 108, 101, 46, 99, 111, 109]
    path := [47]
    expires := .finite 1735689600
    secure := true
    httpOnly := true }

/-- `fixtureRecord` with the expiration bytes replaced by
255 255 255 255 255 255 239 63, the little-endian encoding of the double
`1 - 2 ^ (-53)`. -/
def cexRecordC2 : List ℕ :=
  [89, 0, 0, 0, 0, 0, 0, 0, 5, 0, 0, 0, 0, 0, 0, 0, 56, 0,
   0, 0, 69, 0, 0, 0, 80, 0, 0, 0, 82, 0, 0, 0, 0, 0, 0, 0,
   0, 0, 0, 0, 255, 255, 255, 255, 255, 255, 239, 63, 0, 0, 0, 0, 0, 0,
   0, 0, 46, 101, 120, 97, 109, 112, 108, 101, 46, 99, 111, 109, 0, 115, 101, 115,
   115, 105, 111, 110, 95, 105, 100, 0, 47, 0, 97, 98, 99, 49, 50, 51, 0]

/-- The cookie `cexRecordC2` decodes to: the double sum
`(1 - 2 ^ (-53)) + 978307200` rounds up to 978307201, so the program
floors that to 978307201. -/
def cexCookieC2 : SafariCookie :=
  { name := [115, 101, 115, 115, 105, 111, 110, 95, 105, 100]
    value := [97, 98, 99, 49, 50, 51]
    domain := [46, 101, 120, 97, 109, 112, 108, 101, 46, 99, 111, 109]
    path := [47]
    expires := .finite 978307201
    secure := true
    httpOnly := true }

/-- `fixturePage` with the record's name-offset field overwritten with
200, so that the name string would start at position 212, far outside
the 101-byte page. -/
def cexPageC3 : List ℕ :=
  [0, 0, 1, 0, 1, 0, 0, 0, 12, 0, 0, 0, 89, 0, 0, 0, 0, 0,
   0, 0, 5, 0, 0, 0, 0, 0, 0, 0, 56, 0, 0, 0, 200, 0, 0, 0,
   80, 0, 0, 0, 82, 0, 0, 0, 0, 0, 0, 0, 0, 0, 0, 0, 0, 0,
   0, 128, 94, 146, 198, 65, 0, 0, 0, 0, 0, 0, 0, 0, 46, 101, 120, 97,
   109, 112, 108, 101, 46, 99, 111, 109, 0, 115, 101, 115, 115, 105, 111, 110, 95, 105,
   100, 0, 47, 0, 97, 98, 99, 49, 50, 51, 0]

/-- The cookie `cexPageC3` decodes to: identical to `fixtureCookie`
except that the out-of-bounds name offset produced an empty name. -/
def cexCookieC3 : SafariCookie :=
  { name := []
    value := [97, 98, 99, 49, 50, 51]
    domain := [46, 101, 120, 97, 109, 112, 108, 101, 46, 99, 111, 109]
    path := [47]
    expires := .finite 1735689600
    secure := true
    httpOnly := true }

/-- Valid magic, one declared page of 100 bytes, but no page bytes at all
after the complete 12-byte header. -/
def cexBufferC4 : List ℕ := [99, 111, 111, 107, 0, 0, 0, 1, 0, 0, 0, 100]

/-- Valid magic, complete header declaring two 10-byte pages, but no page
bytes after the header. -/
def cexBufferC5 : List ℕ :=
  [99, 111, 111, 107, 0, 0, 0, 2, 0, 0, 0, 10, 0, 0, 0, 10]

/-- Valid magic, one declared page of 100 bytes, but only 6 page bytes
remain; the clipped slice carries the non-matching signature 0x00000200. -/
def cexTruncPage : List ℕ :=
  [99, 111, 111, 107, 0, 0, 0, 1, 0, 0, 0, 100, 0, 0, 2, 0, 9, 9]

/-- A 6-byte page slice whose signature reads as 0x00000200. -/
def pageBadSig : List ℕ := [0, 0, 2, 0, 9, 9]

/-- A page declaring one record at offset 200, outside the 12-byte page,
so that decoding that record fails with an out-of-range read. -/
def pageC7 : List ℕ := [0, 0, 1, 0, 1, 0, 0, 0, 200, 0, 0, 0]

/-- Header-complete buffer (magic, page count 2) that is shorter than its
declared header size 8 + 4*2 = 16. -/
def hdrShortBuffer : List ℕ := [99, 111, 111, 107, 0, 0, 0, 2, 0, 0, 0, 1]

/-- The bytes of "example.com". -/
def dExampleCom : List ℕ := [101, 120, 97, 109, 112, 108, 101, 46, 99, 111, 109]

/-- The bytes of ".example.com". -/
def dDotExampleCom : List ℕ := 46 :: dExampleCom

/-- The bytes of "sub.example.com". -/
def dSubExampleCom : List ℕ := [115, 117, 98] ++ dDotExampleCom

/-- The bytes of "other.com". -/
def dOtherCom : List ℕ := [111, 116, 104, 101, 114, 46, 99, 111, 109]

/-- A cookie with the given domain and neutral remaining fields, used to
exercise the domain filter. -/
def mkDomainCookie (dom : List ℕ) : SafariCookie :=
  { name := [], value := [], domain := dom, path := [],
    expires := .finite 0, secure := false, httpOnly := false }

/-! ## Helper lemmas -/

/-- `dyadicFloorInt` is the `Int.floor` over `ℚ` of the exact value of
the dyadic number. -/
theorem dyadicFloorInt_eq (d : Dyadic) : dyadicFloorInt d = ⌊d.toRat⌋ := by
  obtain ⟨num, ex⟩ := d
  unfold dyadicFloorInt Dyadic.toRat
  dsimp only
  by_cases h : 0 ≤ ex
  · obtain ⟨k, hk⟩ : ∃ k : ℕ, ex = (k : ℤ) := ⟨ex.toNat, (Int.toNat_of_nonneg h).symm⟩
    rw [hk, if_pos (Int.natCast_nonneg k)]
    simp only [Int.toNat_natCast]
    have harg : ((num : ℚ)) * (2 : ℚ) ^ ((k : ℕ) : ℤ) =
        (((num * ((2 ^ k : ℕ) : ℤ)) : ℤ) : ℚ) := by
      push_cast
      rw [zpow_natCast]
      try ring
    rw [harg, Int.floor_intCast]
  · obtain ⟨k, hk⟩ : ∃ k : ℕ, ex = -(k : ℤ) := by
      refine ⟨(-ex).toNat, ?_⟩
      rw [Int.toNat_of_nonneg (by omega : (0:ℤ) ≤ -ex)]; ring
    rw [hk] at h
    rw [hk, if_neg h]
    simp only [neg_neg, Int.toNat_natCast]
    have harg : ((num : ℚ)) * (2 : ℚ) ^ (-((k : ℕ) : ℤ)) =
        (((num : ℤ)) : ℚ) / (((2 ^ k : ℕ) : ℚ)) := by
      rw [zpow_neg, zpow_natCast]
      rw [div_eq_mul_inv]
      push_cast
      try ring
    rw [harg, Rat.floor_intCast_div_natCast]

/-- `Math.floor` of a finite value is the floor of its exact rational
value. -/
theorem jsFloor_finite (s : Dyadic) : jsFloor (.finite s) = .finite ⌊s.toRat⌋ := by
  unfold jsFloor
  dsimp only
  rw [dyadicFloorInt_eq]

/-- A successful big-endian 32-bit read implies the four bytes fit. -/
theorem readUInt32BE_ok_le (b : List ℕ) (off n : ℕ) (h : readUInt32BE b off = .ok n) :
    off + 4 ≤ b.length := by
  unfold readUInt32BE at h
  by_cases hb : off + 4 ≤ b.length
  · exact hb
  · rw [if_neg hb] at h; exact absurd h (by simp)

/-- Reading a nonempty page-size table out of a buffer shorter than the
header throws an out-of-range error. -/
theorem readPageSizes_short (buffer : List ℕ) :
    ∀ (n i : ℕ), n ≠ 0 → buffer.length < 8 + 4 * (i + n) →
      readPageSizes buffer i n = .error .outOfRange := by
  intro n
  induction n with
  | zero => intro i h; exact absurd rfl h
  | succ n' ih =>
    intro i _ hlen
    unfold readPageSizes
    cases hr : readUInt32BE buffer (8 + i * 4) with
    | error e =>
      unfold readUInt32BE at hr
      by_cases hb : 8 + i * 4 + 4 ≤ buffer.length
      · rw [if_pos hb] at hr; exact absurd hr (by simp)
      · rw [if_neg hb] at hr
        simp only [Except.error.injEq] at hr
        rw [← hr]
    | ok s =>
      have hb : 8 + i * 4 + 4 ≤ buffer.length := by
        by_contra hb
        unfold readUInt32BE at hr
        rw [if_neg hb] at hr
        exact absurd hr (by simp)
      have hn' : n' ≠ 0 := by omega
      rw [ih (i + 1) hn' (by omega)]

/-- A byte-level parse error surfaces from `importSafariCookies` as a
`parseFailure`. -/
theorem importSafariCookies_parse_error (buffer : List ℕ) (domain : Option (List ℕ))
    (e : ParseError) (h : parseBinaryCookies buffer = .error e) :
    importSafariCookies true buffer domain = .error (.parseFailure e) := by
  unfold importSafariCookies
  rw [if_pos rfl, h]

/-- With a valid magic but a buffer shorter than the declared header size
`8 + 4 * pageCount`, the parse throws an out-of-range error. -/
theorem parseBinaryCookies_header_short (buffer : List ℕ) (n : ℕ)
    (hmagic : (buffer.take 4).map (fun b => b % 128) = cookMagic)
    (hn : readUInt32BE buffer 4 = .ok n)
    (hlen : buffer.length < 8 + 4 * n) :
    parseBinaryCookies buffer = .error .outOfRange := by
  have h8 : 8 ≤ buffer.length := readUInt32BE_ok_le buffer 4 n hn
  have hn0 : n ≠ 0 := by omega
  unfold parseBinaryCookies
  rw [if_pos hmagic, hn]
  dsimp only
  rw [readPageSizes_short buffer n 0 hn0 (by omega)]

/-- `PagesParseTo buffer sizes off lists` says that walking the page-size
table from byte offset `off`, each clipped page slice parses to the
corresponding entry of `lists`. -/
def PagesParseTo (buffer : List ℕ) : List ℕ → ℕ → List (List SafariCookie) → Prop
  | [], _, lists => lists = []
  | size :: rest, off, lists =>
    ∃ l ls, lists = l :: ls ∧ parsePage ((buffer.drop off).take size) = .ok l ∧
      PagesParseTo buffer rest (off + size) ls

/-- When every page parses, `parsePages` returns the page results
concatenated in page order. -/
theorem parsePages_of_pagesParseTo (buffer : List ℕ) :
    ∀ (sizes : List ℕ) (off : ℕ) (lists : List (List SafariCookie)),
      PagesParseTo buffer sizes off lists →
      parsePages buffer sizes off = .ok lists.flatten := by
  intro sizes
  induction sizes with
  | nil =>
    intro off lists h
    unfold PagesParseTo at h
    subst h
    rfl
  | cons size rest ih =>
    intro off lists h
    unfold PagesParseTo at h
    obtain ⟨l, ls, rfl, hpage, hrest⟩ := h
    unfold parsePages
    rw [hpage, ih (off + size) ls hrest]
    dsimp only
    rw [List.flatten_cons]

/-- When every record-offset entry reads successfully, the record loop
returns, in offset-table order, exactly the records that decode, skipped
records omitted. -/
theorem parseRecordsFrom_order (buffer : List ℕ) :
    ∀ (n i : ℕ) (offs : ℕ → ℕ),
      (∀ j, j < n → readUInt32LE buffer (8 + (i + j) * 4) = .ok (offs j)) →
      parseRecordsFrom buffer i n =
        .ok ((List.range n).filterMap
          (fun j => (parseCookieRecord buffer (offs j)).toOption)) := by
  intro n
  induction n with
  | zero => intro i offs _; rfl
  | succ n' ih =>
    intro i offs h
    unfold parseRecordsFrom
    have h0 := h 0 (Nat.succ_pos n')
    rw [Nat.add_zero] at h0
    rw [h0]
    dsimp only
    have hrec := ih (i + 1) (fun j => offs (j + 1)) ?hh
    case hh =>
      intro j hj
      have hv := h (j + 1) (by omega)
      rwa [show i + (j + 1) = i + 1 + j by omega] at hv
    rw [hrec]
    dsimp only
    rw [List.range_succ_eq_map]
    cases hc : parseCookieRecord buffer (offs 0) with
    | ok c =>
      dsimp only
      congr 1
      simp [List.filterMap_cons, hc, List.filterMap_map, Function.comp_def,
        Nat.succ_eq_add_one, Except.toOption]
    | error e =>
      dsimp only
      congr 1
      simp [List.filterMap_cons, hc, List.filterMap_map, Function.comp_def,
        Nat.succ_eq_add_one, Except.toOption]

/-! ## Claims -/

/-- C1: parsing the hand-constructed minimal valid file with one page
containing one record (domain ".example.com", name "session_id", value
"abc123", flags with bits 0 and 2 set, expiration the Cocoa timestamp
757382400.0) returns exactly one cookie with that name, value and domain,
`expires = 1735689600`, `secure = true` and `httpOnly = true`. -/
theorem c1_fixture_roundtrip : parseBinaryCookies fixtureFile = .ok [fixtureCookie] := rfl

set_option maxRecDepth 40000 in
/-- C2 counterexample: the record `cexRecordC2` carries the expiration
double `1 - 2 ^ (-53)` (read at record offset +40 as the dyadic
`9007199254740991 * 2 ^ (-53)`); the double addition rounds the sum up to
978307201, so the decoded cookie has `expires = 978307201`, while the
floor of the exact sum `expiration + 978307200` is 978307200 — `expires`
does not equal `floor(expiration + 978307200)`. -/
theorem c2_record_normalization_cex :
    parseCookieRecord cexRecordC2 0 = .ok cexCookieC2 ∧
    readDoubleLE cexRecordC2 (0 + 40) = .ok (.finite ⟨9007199254740991, -53⟩) ∧
    cexCookieC2.expires = .finite 978307201 ∧
    ⌊Dyadic.toRat ⟨9007199254740991, -53⟩ + (978307200 : ℚ)⌋ = 978307200 := by
  refine ⟨rfl, rfl, rfl, ?_⟩
  have harg : Dyadic.toRat ⟨9007199254740991, -53⟩ + (978307200 : ℚ) =
      Dyadic.toRat ⟨8811807891754945863483391, -53⟩ := by
    unfold Dyadic.toRat
    dsimp only
    have h2 : ((8811807891754945863483391 : ℤ) : ℚ) =
        ((9007199254740991 : ℤ) : ℚ) + 978307200 * (2 : ℚ) ^ (53 : ℕ) := by
      norm_num
    have h3 : ((-53 : ℤ)) = -((53 : ℕ) : ℤ) := by norm_num
    rw [h2, h3, zpow_neg, zpow_natCast]
    have h4 : ((2 : ℚ) ^ (53 : ℕ)) ≠ 0 := by positivity
    field_simp
  rw [harg, ← dyadicFloorInt_eq]
  decide

/-- C2 amended: every decoded record is normalized deterministically:
`expires` is the floor of the IEEE-754 binary64 sum (round-to-nearest,
ties-to-even) of the expiration double read at record offset +40 and
978307200 — which is floor(expiration + 978307200) whenever that sum is
exact; `secure` is bit 0 of the flags field read at record offset +8,
`httpOnly` is bit 2, each bit independent; flags 5 give both true, flags
0 both false, flags 1 secure only. -/
theorem c2_record_normalization (buffer : List ℕ) (recordOffset : ℕ) (c : SafariCookie)
    (flags : ℕ) (d : Dyadic)
    (hc : parseCookieRecord buffer recordOffset = .ok c)
    (hf : readUInt32LE buffer (recordOffset + 8) = .ok flags)
    (hd : readDoubleLE buffer (recordOffset + 40) = .ok (.finite d)) :
    (∀ s : Dyadic, jsAdd (.finite d) COCOA_EPOCH_OFFSET = .finite s →
        c.expires = .finite ⌊s.toRat⌋) ∧
    c.secure = (flags &&& 1 != 0) ∧
    c.httpOnly = (flags &&& 4 != 0) ∧
    (flags = 5 → c.secure = true ∧ c.httpOnly = true) ∧
    (flags = 0 → c.secure = false ∧ c.httpOnly = false) ∧
    (flags = 1 → c.secure = true ∧ c.httpOnly = false) := by
  unfold parseCookieRecord at hc
  simp only [hf] at hc
  cases h16 : readUInt32LE buffer (recordOffset + 16) with
  | error e => simp [h16] at hc
  | ok v16 =>
  simp only [h16] at hc
  cases h20 : readUInt32LE buffer (recordOffset + 20) with
  | error e => simp [h20] at hc
  | ok v20 =>
  simp only [h20] at hc
  cases h24 : readUInt32LE buffer (recordOffset + 24) with
  | error e => simp [h24] at hc
  | ok v24 =>
  simp only [h24] at hc
  cases h28 : readUInt32LE buffer (recordOffset + 28) with
  | error e => simp [h28] at hc
  | ok v28 =>
  simp only [h28] at hc
  simp only [hd] at hc
  simp only [Except.ok.injEq] at hc
  subst hc
  refine ⟨?_, rfl, rfl, ?_, ?_, ?_⟩
  · intro s hs
    show cocoaToUnix (.finite d) = .finite ⌊s.toRat⌋
    unfold cocoaToUnix
    rw [hs]
    exact jsFloor_finite s
  all_goals intro h
  all_goals subst h
  all_goals exact ⟨rfl, rfl⟩

set_option maxRecDepth 40000 in
/-- C2 witness: the fixture record at offset 0 of `fixtureRecord`
instantiates the normalization theorem with flags 5 and the dyadic value
6353384059699200 * 2 ^ (-23) = 757382400, whose rounded sum with the
offset is 7280009832038400 * 2 ^ (-22) = 1735689600. -/
theorem c2_record_normalization_witness :
    fixtureCookie.expires = .finite ⌊Dyadic.toRat ⟨7280009832038400, -22⟩⌋ ∧
    fixtureCookie.secure = ((5 : ℕ) &&& 1 != 0) ∧
    fixtureCookie.httpOnly = ((5 : ℕ) &&& 4 != 0) ∧
    ((5 : ℕ) = 5 → fixtureCookie.secure = true ∧ fixtureCookie.httpOnly = true) ∧
    ((5 : ℕ) = 0 → fixtureCookie.secure = false ∧ fixtureCookie.httpOnly = false) ∧
    ((5 : ℕ) = 1 → fixtureCookie.secure = true ∧ fixtureCookie.httpOnly = false) := by
  have hc : parseCookieRecord fixtureRecord 0 = .ok fixtureCookie := rfl
  have hf : readUInt32LE fixtureRecord (0 + 8) = .ok 5 := rfl
  have hd : readDoubleLE fixtureRecord (0 + 40) =
      .ok (.finite ⟨6353384059699200, -23⟩) := rfl
  have hs : jsAdd (.finite ⟨6353384059699200, -23⟩) COCOA_EPOCH_OFFSET =
      .finite ⟨7280009832038400, -22⟩ := rfl
  have h := c2_record_normalization fixtureRecord 0 fixtureCookie 5
    ⟨6353384059699200, -23⟩ hc hf hd
  exact ⟨h.1 ⟨7280009832038400, -22⟩ hs, h.2.1, h.2.2.1, h.2.2.2.1,
    h.2.2.2.2.1, h.2.2.2.2.2⟩

/-- C3 counterexample: in `cexPageC3` the record's name string would start
at position 12 + 200 = 212, outside the 101-byte page, yet the record is
not skipped and no error is raised: it decodes with an empty name and
appears in the output. -/
theorem c3_bad_string_offset_cex :
    parsePage cexPageC3 = .ok [cexCookieC3] ∧ cexCookieC3.name = [] ∧
    cexPageC3.length < 12 + 200 := ⟨rfl, rfl, by decide⟩

/-- C3 amended: an out-of-bounds string start yields the empty string for
that field and the record still decodes and appears in the output; a
record fails to decode exactly when its fixed fields (up to byte +48) do
not fit in the slice. -/
theorem c3_bad_string_offset_amended :
    (∀ (buffer : List ℕ) (offset : ℕ), buffer.length ≤ offset →
        readCString buffer offset = []) ∧
    (∀ (buffer : List ℕ) (recordOffset : ℕ),
        (∃ c, parseCookieRecord buffer recordOffset = .ok c) ↔
          recordOffset + 48 ≤ buffer.length) := by
  constructor
  · intro buffer offset hlen
    unfold readCString
    rw [List.drop_eq_nil_of_le hlen]
    rfl
  · intro buffer recordOffset
    constructor
    · rintro ⟨c, hc⟩
      by_contra hlen
      have hdd : readDoubleLE buffer (recordOffset + 40) = .error ParseError.outOfRange := by
        unfold readDoubleLE
        rw [if_neg (by omega)]
      unfold parseCookieRecord at hc
      rw [hdd] at hc
      repeat' (split at hc)
      all_goals simp_all
    · intro hlen
      cases hres : parseCookieRecord buffer recordOffset with
      | ok c => exact ⟨c, rfl⟩
      | error e =>
        exfalso
        unfold parseCookieRecord readUInt32LE readDoubleLE at hres
        rw [if_pos (by omega), if_pos (by omega), if_pos (by omega), if_pos (by omega),
          if_pos (by omega), if_pos (by omega)] at hres
        simp at hres

/-- C3 amended witness: an out-of-bounds offset on a 2-byte buffer gives
the empty string, and the fixture record (whose 48 fixed bytes fit at
offset 12 of the 101-byte page) decodes successfully. -/
theorem c3_bad_string_offset_witness :
    readCString [1, 2] 5 = [] ∧ (∃ c, parseCookieRecord fixturePage 12 = .ok c) :=
  ⟨c3_bad_string_offset_amended.1 [1, 2] 5 (by decide),
   (c3_bad_string_offset_amended.2 fixturePage 12).mpr (by decide)⟩

/-- C4 counterexample: `cexBufferC4` has a valid magic and a complete
header whose single page declares 100 bytes while 0 remain; the clipped
(empty) slice makes the page-signature read throw, so `parseBinaryCookies`
raises a file-level error instead of returning normally. -/
theorem c4_truncated_page_cex :
    (cexBufferC4.take 4).map (fun b => b % 128) = cookMagic ∧
    readUInt32BE cexBufferC4 4 = .ok 1 ∧
    cexBufferC4.length = 8 + 4 * 1 ∧
    cexBufferC4.length - 12 < 100 ∧
    parseBinaryCookies cexBufferC4 = .error .outOfRange :=
  ⟨rfl, rfl, rfl, by decide, rfl⟩

/-- C4 amended: a page declaring more bytes than remain is clipped to the
remaining bytes and decoding proceeds on the clipped slice; the file
parses normally when the clipped slice itself decodes without an
out-of-range read (otherwise, as the counterexample shows, the error is
fatal). -/
theorem c4_truncated_page_amended :
    (∀ (buffer : List ℕ) (off size : ℕ), buffer.length ≤ off + size →
        (buffer.drop off).take size = buffer.drop off) ∧
    (∀ (buffer : List ℕ) (off size : ℕ) (rest : List ℕ) (l l' : List SafariCookie),
        buffer.length ≤ off + size →
        parsePage (buffer.drop off) = .ok l →
        parsePages buffer rest (off + size) = .ok l' →
        parsePages buffer (size :: rest) off = .ok (l ++ l')) := by
  have hclip : ∀ (buffer : List ℕ) (off size : ℕ), buffer.length ≤ off + size →
      (buffer.drop off).take size = buffer.drop off := by
    intro buffer off size h
    apply List.take_of_length_le
    rw [List.length_drop]
    omega
  refine ⟨hclip, ?_⟩
  intro buffer off size rest l l' hlen hpage hrest
  unfold parsePages
  rw [hclip buffer off size hlen, hpage, hrest]

/-- C4 amended witness: in `cexTruncPage` the declared 100-byte page is
clipped to the 6 remaining bytes, whose signature mismatch yields zero
cookies, and the page walk returns normally. -/
theorem c4_truncated_page_witness :
    (cexTruncPage.drop 12).take 100 = cexTruncPage.drop 12 ∧
    parsePages cexTruncPage [100] 12 = .ok [] :=
  ⟨c4_truncated_page_amended.1 cexTruncPage 12 100 (by decide),
   c4_truncated_page_amended.2 cexTruncPage 12 100 [] [] [] (by decide) rfl rfl⟩

/-- C5 counterexample: `cexBufferC5` has a valid magic and a complete
header (16 bytes = 8 + 4*2) and the file "exists", yet
`importSafariCookies` still fails, with an out-of-range page read; so the
three listed conditions are not the only fatal ones. -/
theorem c5_fatal_conditions_cex :
    (cexBufferC5.take 4).map (fun b => b % 128) = cookMagic ∧
    readUInt32BE cexBufferC5 4 = .ok 2 ∧
    8 + 4 * 2 ≤ cexBufferC5.length ∧
    importSafariCookies true cexBufferC5 none = .error (.parseFailure .outOfRange) :=
  ⟨rfl, rfl, by decide, rfl⟩

/-- C5 amended: a missing file, a magic mismatch, and a buffer shorter
than its declared `8 + 4*N` header (which fails as an out-of-range read,
not a dedicated truncation error) are each fatal — but they are not
exactly the fatal conditions, since an out-of-range read while decoding
a page is fatal too. -/
theorem c5_fatal_conditions_amended :
    (∀ (buffer : List ℕ) (domain : Option (List ℕ)),
        importSafariCookies false buffer domain = .error .fileNotFound) ∧
    (∀ (buffer : List ℕ) (domain : Option (List ℕ)),
        (buffer.take 4).map (fun b => b % 128) ≠ cookMagic →
        importSafariCookies true buffer domain =
          .error (.parseFailure (.badMagic ((buffer.take 4).map (fun b => b % 128))))) ∧
    (∀ (buffer : List ℕ) (domain : Option (List ℕ)),
        (buffer.take 4).map (fun b => b % 128) = cookMagic →
        buffer.length < 8 →
        importSafariCookies true buffer domain = .error (.parseFailure .outOfRange)) ∧
    (∀ (buffer : List ℕ) (domain : Option (List ℕ)) (n : ℕ),
        (buffer.take 4).map (fun b => b % 128) = cookMagic →
        readUInt32BE buffer 4 = .ok n →
        buffer.length < 8 + 4 * n →
        importSafariCookies true buffer domain = .error (.parseFailure .outOfRange)) := by
  refine ⟨fun buffer domain => rfl, ?_, ?_, ?_⟩
  · intro buffer domain hmagic
    apply importSafariCookies_parse_error
    unfold parseBinaryCookies
    rw [if_neg hmagic]
  · intro buffer domain hmagic hlen
    apply importSafariCookies_parse_error
    unfold parseBinaryCookies
    rw [if_pos hmagic]
    have hbe : readUInt32BE buffer 4 = .error .outOfRange := by
      unfold readUInt32BE
      rw [if_neg (by omega)]
    rw [hbe]
  · intro buffer domain n hmagic hn hlen
    exact importSafariCookies_parse_error buffer domain _
      (parseBinaryCookies_header_short buffer n hmagic hn hlen)

/-- C5 amended witness: a missing file, a bad magic, a 4-byte buffer with
a valid magic, and `hdrShortBuffer` (12 bytes, header needs 16) each
produce the corresponding fatal error. -/
theorem c5_fatal_conditions_witness :
    importSafariCookies false [] none = .error .fileNotFound ∧
    importSafariCookies true [1, 2, 3] none =
      .error (.parseFailure (.badMagic (([1, 2, 3].take 4).map (fun b => b % 128)))) ∧
    importSafariCookies true [99, 111, 111, 107] none =
      .error (.parseFailure .outOfRange) ∧
    importSafariCookies true hdrShortBuffer none = .error (.parseFailure .outOfRange) :=
  ⟨c5_fatal_conditions_amended.1 [] none,
   c5_fatal_conditions_amended.2.1 [1, 2, 3] none (by decide),
   c5_fatal_conditions_amended.2.2.1 [99, 111, 111, 107] none rfl (by decide),
   c5_fatal_conditions_amended.2.2.2 hdrShortBuffer none 2 rfl rfl (by decide)⟩

/-- C6: a page whose first four bytes read big-endian as something other
than 0x00000100 yields the empty cookie list without an error, and the
page walk simply proceeds with the next page. -/
theorem c6_page_signature_skip :
    ∀ (pb : List ℕ) (sig : ℕ), readUInt32BE pb 0 = .ok sig → sig ≠ 0x00000100 →
      parsePage pb = .ok [] ∧
      (∀ (buffer : List ℕ) (off size : ℕ) (rest : List ℕ),
          (buffer.drop off).take size = pb →
          parsePages buffer (size :: rest) off = parsePages buffer rest (off + size)) := by
  intro pb sig hsig hne
  have hpage : parsePage pb = .ok [] := by
    unfold parsePage
    rw [hsig]
    dsimp only
    rw [if_pos hne]
  refine ⟨hpage, ?_⟩
  intro buffer off size rest hslice
  conv_lhs => unfold parsePages
  rw [hslice, hpage]
  dsimp only
  cases hrest : parsePages buffer rest (off + size) with
  | error e => rfl
  | ok more => simp

/-- C6 witness: the 6-byte slice `pageBadSig` (signature 0x00000200)
parses to zero cookies, and inside `cexTruncPage` that page is skipped
while the walk continues. -/
theorem c6_page_signature_skip_witness :
    parsePage pageBadSig = .ok [] ∧
    parsePages cexTruncPage [100] 12 = parsePages cexTruncPage [] (12 + 100) := by
  have h := c6_page_signature_skip pageBadSig 512 rfl (by decide)
  exact ⟨h.1, h.2 cexTruncPage 12 100 [] rfl⟩

/-- C7: a record whose decode fails is dropped and parsing continues with
the next record offset of the same page: the record loop on `n + 1`
entries equals the loop on the remaining `n` entries. -/
theorem c7_record_failure_skip :
    ∀ (buffer : List ℕ) (i n off : ℕ) (e : ParseError),
      readUInt32LE buffer (8 + i * 4) = .ok off →
      parseCookieRecord buffer off = .error e →
      parseRecordsFrom buffer i (n + 1) = parseRecordsFrom buffer (i + 1) n := by
  intro buffer i n off e hoff herr
  conv_lhs => unfold parseRecordsFrom
  rw [hoff]
  dsimp only
  cases hrest : parseRecordsFrom buffer (i + 1) n with
  | error e' => rfl
  | ok rest => rw [herr]

/-- C7 witness: in `pageC7` the single record offset 200 points outside
the page, its decode fails, and the loop continues as if the entry were
not there. -/
theorem c7_record_failure_skip_witness :
    parseRecordsFrom pageC7 0 (0 + 1) = parseRecordsFrom pageC7 (0 + 1) 0 :=
  c7_record_failure_skip pageC7 0 0 200 .outOfRange rfl rfl

/-- C8: with a (nonempty) domain filter, `importSafariCookies` keeps a
cookie exactly when, lower-cased, its domain equals the filter, equals
"." + filter, or ends with "." + filter; with no filter the parsed
sequence is returned unchanged; "example.com" matches the exact,
dot-prefixed and subdomain forms while "other.com" matches none of them. -/
theorem c8_domain_filter :
    (∀ (buffer : List ℕ) (f : List ℕ) (cookies : List SafariCookie), f ≠ [] →
        parseBinaryCookies buffer = .ok cookies →
        importSafariCookies true buffer (some f) =
          .ok (cookies.filter (domainFilterMatch (toLowerAscii f)))) ∧
    (∀ (buffer : List ℕ) (cookies : List SafariCookie),
        parseBinaryCookies buffer = .ok cookies →
        importSafariCookies true buffer none = .ok cookies) ∧
    (∀ (f : List ℕ) (c : SafariCookie),
        domainFilterMatch (toLowerAscii f) c = true ↔
          (toLowerAscii c.domain = toLowerAscii f ∨
           toLowerAscii c.domain = 46 :: toLowerAscii f ∨
           (46 :: toLowerAscii f) <:+ toLowerAscii c.domain)) ∧
    (domainFilterMatch (toLowerAscii dExampleCom) (mkDomainCookie dExampleCom) = true ∧
     domainFilterMatch (toLowerAscii dExampleCom) (mkDomainCookie dDotExampleCom) = true ∧
     domainFilterMatch (toLowerAscii dExampleCom) (mkDomainCookie dSubExampleCom) = true ∧
     domainFilterMatch (toLowerAscii dOtherCom) (mkDomainCookie dExampleCom) = false ∧
     domainFilterMatch (toLowerAscii dOtherCom) (mkDomainCookie dDotExampleCom) = false ∧
     domainFilterMatch (toLowerAscii dOtherCom) (mkDomainCookie dSubExampleCom) = false) := by
  refine ⟨?_, ?_, ?_, by decide, by decide, by decide, by decide, by decide, by decide⟩
  · intro buffer f cookies hf hparse
    unfold importSafariCookies
    rw [if_pos rfl, hparse]
    dsimp only
    rw [if_pos hf]
  · intro buffer cookies hparse
    unfold importSafariCookies
    rw [if_pos rfl, hparse]
  · intro f c
    unfold domainFilterMatch
    simp [List.isSuffixOf_iff_suffix, or_assoc]

/-- C8 witness: filtering the parsed fixture by "example.com" applies the
domain predicate, and the no-filter call returns the parsed list
unchanged. -/
theorem c8_domain_filter_witness :
    importSafariCookies true fixtureFile (some dExampleCom) =
      .ok ([fixtureCookie].filter (domainFilterMatch (toLowerAscii dExampleCom))) ∧
    importSafariCookies true fixtureFile none = .ok [fixtureCookie] :=
  ⟨c8_domain_filter.1 fixtureFile dExampleCom [fixtureCookie] (by decide) rfl,
   c8_domain_filter.2.1 fixtureFile [fixtureCookie] rfl⟩

/-- C9: the parse pipeline is deterministic and stateless — on equal
(unchanged) buffers two runs return structurally equal results, both for
the byte-level parse and for the import wrapper. -/
theorem c9_parse_deterministic :
    ∀ (b₁ b₂ : List ℕ), b₁ = b₂ →
      parseBinaryCookies b₁ = parseBinaryCookies b₂ ∧
      ∀ (fe : Bool) (domain : Option (List ℕ)),
        importSafariCookies fe b₁ domain = importSafariCookies fe b₂ domain := by
  rintro b₁ b₂ rfl
  exact ⟨rfl, fun _ _ => rfl⟩

/-- C9 witness: two runs on the fixture file agree. -/
theorem c9_parse_deterministic_witness :
    parseBinaryCookies fixtureFile = parseBinaryCookies fixtureFile ∧
    importSafariCookies true fixtureFile none = importSafariCookies true fixtureFile none :=
  ⟨(c9_parse_deterministic fixtureFile fixtureFile rfl).1,
   (c9_parse_deterministic fixtureFile fixtureFile rfl).2 true none⟩

/-- C10: the output order is fixed — pages contribute their cookies in
page-table order (the result is the concatenation of the per-page lists),
and within a page cookies appear in record-offset-table order with
records that fail to decode omitted. -/
theorem c10_output_order :
    (∀ (buffer : List ℕ) (n : ℕ) (sizes : List ℕ) (lists : List (List SafariCookie)),
        (buffer.take 4).map (fun b => b % 128) = cookMagic →
        readUInt32BE buffer 4 = .ok n →
        readPageSizes buffer 0 n = .ok sizes →
        PagesParseTo buffer sizes (8 + n * 4) lists →
        parseBinaryCookies buffer = .ok lists.flatten) ∧
    (∀ (buffer : List ℕ) (i n : ℕ) (offs : ℕ → ℕ),
        (∀ j, j < n → readUInt32LE buffer (8 + (i + j) * 4) = .ok (offs j)) →
        parseRecordsFrom buffer i n =
          .ok ((List.range n).filterMap
            (fun j => (parseCookieRecord buffer (offs j)).toOption))) := by
  constructor
  · intro buffer n sizes lists hmagic hn hsizes hpages
    unfold parseBinaryCookies
    rw [if_pos hmagic, hn]
    dsimp only
    rw [hsizes]
    dsimp only
    exact parsePages_of_pagesParseTo buffer sizes (8 + n * 4) lists hpages
  · exact fun buffer i n offs h => parseRecordsFrom_order buffer n i offs h

/-- C10 witness: on the fixture file the single page's cookies appear as
the concatenation of the per-page lists, and the record loop of the
fixture page lists its single record in offset-table order. -/
theorem c10_output_order_witness :
    parseBinaryCookies fixtureFile = .ok [[fixtureCookie]].flatten ∧
    parseRecordsFrom fixturePage 0 1 =
      .ok ((List.range 1).filterMap
        (fun j => (parseCookieRecord fixturePage ((fun _ => 12) j)).toOption)) :=
  ⟨c10_output_order.1 fixtureFile 1 [101] [[fixtureCookie]] rfl rfl rfl
      ⟨[fixtureCookie], [], rfl, rfl, rfl⟩,
   c10_output_order.2 fixturePage 0 1 (fun _ => 12)
      (fun j hj => by
        cases j with
        | zero => rfl
        | succ k => exact absurd hj (by omega))⟩
